import Mathlib

/-!
# gcp-function-kraken: the image-compression cloud function

A shallow embedding of `function.go` (package `function`) and the properties of
its pipeline: content-type filter, loop guard, compression call, fetch of the
result and republish to the bucket.

Conventions of the embedding

* A Go `map[string]V` is an association list with unique keys (`AList`).  The
  order of the entries stands for the (unspecified) iteration order of `range`;
  statements quantify over every such list, hence over every iteration order.
* A Go `error` is represented by its text.
* Everything outside the process (environment variables, the Kraken client,
  HTTP, the local file system calls that may fail, the storage client) is an
  oracle in `Env`; the functions record what they do in a trace of `Effect`s.
* `log.Fatal` ends the process: a function that reaches it neither returns nor
  panics (`Res.fatal`, `Outcome.exited`).
-/

namespace GcpKraken

/-! ## Data model -/

/-- Go `map[string]V`: unique keys, entry order = iteration order of `range`. -/
abbrev GoMap (V : Type) := AList (fun _ : String => V)

/-- A value of type `interface{}` as found in the provider's decoded JSON
response or in the request parameters.  `other shown` stands for a value of any
further dynamic type (number, slice, nested map), `shown` being the text that
package `fmt` prints for it under the verb `%s`. -/
inductive GoValue where
  | null
  | bool (b : Bool)
  | str (s : String)
  | other (shown : String)
  deriving DecidableEq, Repr

/-- GCSEvent holds event data from a Google Cloud Storage Event.  `Metadata` is
`none` for the nil map. -/
structure GCSEvent where
  Bucket : String
  Name : String
  ContentType : String
  CacheControl : String
  ContentEncoding : String
  ContentLanguage : String
  ContentDisposition : String
  Metadata : Option (GoMap String)

/-- The fields of the `storage.Writer` that `ReplaceFileOnGCS` sets, together
with the bucket and object the writer was opened on. -/
structure Writer where
  Bucket : String
  Object : String
  CacheControl : String
  ContentDisposition : String
  ContentLanguage : String
  ContentEncoding : String
  Metadata : GoMap String

/-- The response of `http.Get` when the HTTP exchange completed: a status code
and a body.  (`http.Get` reports no error for a non-2xx status.) -/
structure HttpResponse where
  status : Nat
  body : String
  deriving DecidableEq

/-- What the code does to the outside, in program order.  The three `call*`
entries mark the call sites of the stages inside `ImageCompressor`. -/
inductive Effect where
  | log (msg : String)
  | callCompress (e : GCSEvent)
  | callGet (filePath fileUrl : String)
  | callReplace (e : GCSEvent)
  | krakenNew (key secret : String)
  | krakenURL (params : GoMap GoValue)
  | httpGet (url : String)
  | mkdirAll (path : String)
  | create (path : String)
  | copyToFile (path body : String)
  | closeFile (path : String)
  | closeBody (url : String)
  | openFile (path : String)
  | newClient
  | copyToObject (wc : Writer) (body : String)
  | closeWriter (wc : Writer)

/-- The stage call sites of `ImageCompressor`. -/
def Effect.isCall : Effect → Bool
  | .callCompress _ => true
  | .callGet _ _ => true
  | .callReplace _ => true
  | _ => false

/-- Calls that leave the process: the compression provider, the HTTP fetch and
the storage client. -/
def Effect.isOutbound : Effect → Bool
  | .krakenURL _ => true
  | .httpGet _ => true
  | .newClient => true
  | .copyToObject _ _ => true
  | .closeWriter _ => true
  | _ => false

/-- The stage calls of a trace, in order. -/
def calls (t : List Effect) : List Effect := t.filter Effect.isCall

/-- The world outside the function.  `Option String` is a Go `error`
(`none` = nil). -/
structure Env where
  /-- The function os.Getenv. -/
  getenv : String → String
  /-- The error of kraken.New for a key and a secret. -/
  krakenNew : String → String → Option String
  /-- The method URL of the Kraken client: the decoded response or an error. -/
  krakenURL : GoMap GoValue → Except String (GoMap GoValue)
  /-- The function http.Get. -/
  httpGet : String → Except String HttpResponse
  /-- The function filepath.Dir. -/
  filepathDir : String → String
  /-- The error of os.MkdirAll. -/
  mkdirAll : String → Option String
  /-- The error of os.Create. -/
  create : String → Option String
  /-- The error of io.Copy into the file at a path. -/
  copyToFile : String → String → Option String
  /-- The error of closing the file at a path. -/
  closeFile : String → Option String
  /-- The error of closing the body of the response fetched from a URL. -/
  closeBody : String → Option String
  /-- The error of os.Open for a reason other than a missing file. -/
  openFile : String → Option String
  /-- The error of storage.NewClient. -/
  newClient : Option String
  /-- The error of io.Copy into the storage writer. -/
  copyToObject : Writer → String → Option String
  /-- The error of the Close method of the storage writer. -/
  closeWriter : Writer → Option String

/-- Contents of the files under the temporary folder, by path; the first entry
for a path is the current one. -/
abbrev FS := List (String × String)

/-- How a call of one of the functions ends: it returns a value with a nil
error, it returns an error, or `log.Fatal` ended the process. -/
inductive Res (α : Type) where
  | ok (a : α)
  | err (e : String)
  | fatal (e : String)
  deriving DecidableEq

/-- Result of a function that works on the file system. -/
structure FsRun where
  res : Res Unit
  fs : FS
  trace : List Effect

/-- How an invocation of `ImageCompressor` ends: it returns an error value
(`none` = nil), it panics with an error, or the process exited in `log.Fatal`. -/
inductive Outcome where
  | returned (err : Option String)
  | panicked (err : String)
  | exited (msg : String)
  deriving DecidableEq

/-- Result of an invocation of `ImageCompressor`. -/
structure Invocation where
  outcome : Outcome
  fs : FS
  trace : List Effect

/-! ## Go primitives used by the source -/

/-- Text printed by package `fmt` for one operand under the verb `%s`. -/
def GoValue.fmtS : GoValue → String
  | .str s => s
  | .null => "%!s(<nil>)"
  | .bool true => "%!s(bool=true)"
  | .bool false => "%!s(bool=false)"
  | .other shown => shown

/-- Scan of a format: `%s` consumes the next operand, every other character is
copied. -/
def sprintfAux : List Char → List GoValue → List Char
  | [], _ => []
  | '%' :: 's' :: rest, a :: args => a.fmtS.data ++ sprintfAux rest args
  | '%' :: 's' :: rest, [] => "%!s(MISSING)".data ++ sprintfAux rest []
  | c :: rest, args => c :: sprintfAux rest args

/-- The fragment of `fmt.Sprintf` that the source uses: formats whose only verb
is `%s`. -/
def sprintf (format : String) (args : List GoValue) : String :=
  ⟨sprintfAux format.data args⟩

/-- Index expression `m[k]` on a `map[string]string` that may be nil: the zero
value `""` when the key is missing. -/
def index (m : Option (GoMap String)) (k : String) : String :=
  match m with
  | none => ""
  | some m => (m.lookup k).getD ""

/-- Index expression `data[k]` on a `map[string]interface{}`: the nil interface
when the key is missing. -/
def dataIndex (data : GoMap GoValue) (k : String) : GoValue :=
  (data.lookup k).getD GoValue.null

/-- The entries that `range` visits: none for a nil map. -/
def rangeEntries (m : Option (GoMap String)) : List (Sigma fun _ : String => String) :=
  match m with
  | none => []
  | some m => m.entries

/-- Function `Close` as a deferred call: when closing fails, `log.Fatal` ends
the process instead of the pending return. -/
def Close {α : Type} (closeErr : Option String) (pending : Res α) : Res α :=
  match closeErr with
  | some x => Res.fatal x
  | none => pending

/-- Writable folder available in Google Cloud Functions. -/
def TempFolder : String := "/tmp"

/-! ## The functions of `function.go` -/

/-- The loop body of `IsAllowedContentType` over the remaining entries. -/
def allowedLoop (contentType : String) : List String → Bool
  | [] => false
  | str :: rest => if contentType = str then true else allowedLoop contentType rest

/-- Function `IsAllowedContentType`. -/
def IsAllowedContentType (contentType : String) : Bool :=
  let act := ["image/jpeg", "image/jpg", "image/png", "image/gif", "image/svg+xml"]
  allowedLoop contentType act

/-- The `params` literal of `CompressFileWithKraken`. -/
def krakenParams (e : GCSEvent) : GoMap GoValue :=
  (((∅ : GoMap GoValue).insert "wait" (GoValue.bool true)).insert "lossy" (GoValue.bool true)).insert
    "url" (GoValue.str (sprintf "https://storage.googleapis.com/%s/%s" [.str e.Bucket, .str e.Name]))

/-- Function `CompressFileWithKraken`: the returned pair `(string, error)` and
the trace. -/
def CompressFileWithKraken (env : Env) (e : GCSEvent) : Res String × List Effect :=
  let t0 := [Effect.log (sprintf "Processing file: %s..." [.str e.Name])]
  let key := env.getenv "KRAKEN_API_KEY"
  let secret := env.getenv "KRAKEN_SECRET_KEY"
  let t1 := t0 ++ [Effect.krakenNew key secret]
  match env.krakenNew key secret with
  | some err => (Res.err err, t1)
  | none =>
    let params := krakenParams e
    let t2 := t1 ++ [Effect.krakenURL params]
    match env.krakenURL params with
    | .error err => (Res.err err, t2)
    | .ok data =>
      if dataIndex data "success" ≠ GoValue.bool true then
        (Res.err (sprintf "%s" [dataIndex data "message"]), t2)
      else
        (Res.ok (sprintf "%s" [dataIndex data "kraked_url"]), t2)

/-- Function `GetFileFromKraken`. -/
def GetFileFromKraken (env : Env) (fs : FS) (filePath fileUrl : String) : FsRun :=
  let t0 := [Effect.httpGet fileUrl]
  match env.httpGet fileUrl with
  | .error err => ⟨Res.err err, fs, t0⟩
  | .ok resp =>
    -- defer Close(resp.Body)
    let dir := sprintf "%s/%s" [.str TempFolder, .str (env.filepathDir filePath)]
    let t1 := t0 ++ [Effect.mkdirAll dir]
    match env.mkdirAll dir with
    | some err => ⟨Close (env.closeBody fileUrl) (Res.err err), fs, t1 ++ [Effect.closeBody fileUrl]⟩
    | none =>
      let path := sprintf "/%s/%s" [.str TempFolder, .str filePath]
      let t2 := t1 ++ [Effect.create path]
      match env.create path with
      | some err => ⟨Close (env.closeBody fileUrl) (Res.err err), fs, t2 ++ [Effect.closeBody fileUrl]⟩
      | none =>
        let fs1 : FS := (path, "") :: fs
        -- defer Close(f)
        let t3 := t2 ++ [Effect.copyToFile path resp.body]
        let copied : Res Unit × FS :=
          match env.copyToFile path resp.body with
          | some err => (Res.err err, fs1)
          | none => (Res.ok (), (path, resp.body) :: fs1)
        -- the deferred calls run last in, first out
        match env.closeFile path with
        | some x => ⟨Res.fatal x, copied.2, t3 ++ [Effect.closeFile path]⟩
        | none =>
          ⟨Close (env.closeBody fileUrl) copied.1, copied.2,
            t3 ++ [Effect.closeFile path, Effect.closeBody fileUrl]⟩

/-- The two map objects in play while `ReplaceFileOnGCS` merges the metadata:
the one `e.Metadata` refers to and the one allocated by `make`. -/
structure MergeState where
  src : Option (GoMap String)
  m : GoMap String

/-- Body of the loop `for k, v := range e.Metadata`: the assignment `m[k] = v`. -/
def mergeStep (s : MergeState) (kv : Sigma fun _ : String => String) : MergeState :=
  { s with m := s.m.insert kv.1 kv.2 }

/-- Lines 133 to 138 of `ReplaceFileOnGCS`: `make`, the marker, the loop. -/
def mergeMetadata (eventMetadata : Option (GoMap String)) : MergeState :=
  let s0 : MergeState := ⟨eventMetadata, ∅⟩
  let s1 : MergeState := { s0 with m := s0.m.insert "compressed" "yes" }
  (rangeEntries eventMetadata).foldl mergeStep s1

/-- The writer of `ReplaceFileOnGCS` once its fields are set (lines 131 to 144). -/
def newWriter (e : GCSEvent) : Writer :=
  { Bucket := e.Bucket
    Object := e.Name
    CacheControl := e.CacheControl
    ContentDisposition := e.ContentDisposition
    ContentLanguage := e.ContentLanguage
    ContentEncoding := e.ContentEncoding
    Metadata := (mergeMetadata e.Metadata).m }

/-- The call `os.Open`: the contents of the file, or an error. -/
def osOpen (env : Env) (fs : FS) (path : String) : Except String String :=
  match env.openFile path with
  | some err => .error err
  | none =>
    match fs.lookup path with
    | none => .error (sprintf "open %s: no such file or directory" [.str path])
    | some contents => .ok contents

/-- Function `ReplaceFileOnGCS`. -/
def ReplaceFileOnGCS (env : Env) (fs : FS) (e : GCSEvent) : FsRun :=
  let path := sprintf "/%s/%s" [.str TempFolder, .str e.Name]
  let t0 := [Effect.openFile path]
  match osOpen env fs path with
  | .error err => ⟨Res.err err, fs, t0⟩
  | .ok contents =>
    -- defer Close(f)
    let t1 := t0 ++ [Effect.newClient]
    match env.newClient with
    | some err => ⟨Close (env.closeFile path) (Res.err err), fs, t1 ++ [Effect.closeFile path]⟩
    | none =>
      let wc := newWriter e
      let t2 := t1 ++ [Effect.copyToObject wc contents]
      match env.copyToObject wc contents with
      | some err => ⟨Close (env.closeFile path) (Res.err err), fs, t2 ++ [Effect.closeFile path]⟩
      | none =>
        let t3 := t2 ++ [Effect.closeWriter wc]
        match env.closeWriter wc with
        | some err =>
          ⟨Close (env.closeFile path) (Res.err err), fs, t3 ++ [Effect.closeFile path]⟩
        | none =>
          ⟨Close (env.closeFile path) (Res.ok ()), fs,
            t3 ++ [Effect.log (sprintf "Success, optimized and replaced image on GCS: %s" [.str e.Name]),
                   Effect.closeFile path]⟩

/-- Function `ImageCompressor`. -/
def ImageCompressor (env : Env) (fs : FS) (e : GCSEvent) : Invocation :=
  if index e.Metadata "compressed" = "yes" then
    ⟨Outcome.returned none, fs,
      [Effect.log (sprintf "Not processing file (already compressed): %s" [.str e.Name])]⟩
  else if !IsAllowedContentType e.ContentType then
    ⟨Outcome.returned none, fs,
      [Effect.log (sprintf "Not accepted Content-Type: %s (%s)" [.str e.Name, .str e.ContentType])]⟩
  else
    let c := CompressFileWithKraken env e
    let t1 := Effect.callCompress e :: c.2
    match c.1 with
    | .err x => ⟨Outcome.panicked x, fs, t1⟩
    | .fatal x => ⟨Outcome.exited x, fs, t1⟩
    | .ok fileUrl =>
      let g := GetFileFromKraken env fs e.Name fileUrl
      let t2 := t1 ++ Effect.callGet e.Name fileUrl :: g.trace
      match g.res with
      | .err x => ⟨Outcome.panicked x, g.fs, t2⟩
      | .fatal x => ⟨Outcome.exited x, g.fs, t2⟩
      | .ok _ =>
        let p := ReplaceFileOnGCS env g.fs e
        let t3 := t2 ++ Effect.callReplace e :: p.trace
        match p.res with
        | .err x => ⟨Outcome.panicked x, p.fs, t3⟩
        | .fatal x => ⟨Outcome.exited x, p.fs, t3⟩
        | .ok _ => ⟨Outcome.returned none, p.fs, t3⟩

/-- The finalize event that the storage service emits for the object written
through `wc` in reaction to event `e`: same bucket and object, the headers and
the metadata map of the writer; the content type of the rewritten image is that
of the original. -/
def followUpEvent (e : GCSEvent) (wc : Writer) : GCSEvent :=
  { Bucket := wc.Bucket
    Name := wc.Object
    ContentType := e.ContentType
    CacheControl := wc.CacheControl
    ContentEncoding := wc.ContentEncoding
    ContentLanguage := wc.ContentLanguage
    ContentDisposition := wc.ContentDisposition
    Metadata := some wc.Metadata }

/-! ## Concrete scenarios -/

/-- Event for object `a.png` of bucket `b`, content type `image/png`. -/
def pngEvent (md : Option (GoMap String)) : GCSEvent :=
  { Bucket := "b", Name := "a.png", ContentType := "image/png", CacheControl := "",
    ContentEncoding := "", ContentLanguage := "", ContentDisposition := "", Metadata := md }

/-- Event for a PDF document without metadata. -/
def pdfEvent : GCSEvent :=
  { Bucket := "b", Name := "doc.pdf", ContentType := "application/pdf", CacheControl := "",
    ContentEncoding := "", ContentLanguage := "", ContentDisposition := "", Metadata := none }

/-- Event whose object name holds characters that a URL encoder would escape. -/
def oddNameEvent : GCSEvent :=
  { Bucket := "b", Name := "dir/a b?c#d%25.png", ContentType := "image/png", CacheControl := "",
    ContentEncoding := "", ContentLanguage := "", ContentDisposition := "", Metadata := none }

/-- Provider response of a successful compression. -/
def acceptedResponse : GoMap GoValue :=
  ((∅ : GoMap GoValue).insert "success" (GoValue.bool true)).insert
    "kraked_url" (GoValue.str "https://x/a.png")

/-- Provider response of a rejected compression. -/
def rejectedResponse : GoMap GoValue :=
  ((∅ : GoMap GoValue).insert "success" (GoValue.bool false)).insert
    "message" (GoValue.str "quota exceeded")

/-- An environment with both keys set in which every local call and every
storage call succeeds; the provider answers `reply`, the HTTP fetch `resp`. -/
def calmEnv (reply : Except String (GoMap GoValue)) (resp : Except String HttpResponse) : Env :=
  { getenv := fun k => if k = "KRAKEN_API_KEY" then "key" else "secret"
    krakenNew := fun _ _ => none
    krakenURL := fun _ => reply
    httpGet := fun _ => resp
    filepathDir := fun _ => "."
    mkdirAll := fun _ => none
    create := fun _ => none
    copyToFile := fun _ _ => none
    closeFile := fun _ => none
    closeBody := fun _ => none
    openFile := fun _ => none
    newClient := none
    copyToObject := fun _ _ => none
    closeWriter := fun _ => none }

/-- Metadata of an object already marked as compressed. -/
def markedYes : GoMap String := (∅ : GoMap String).insert "compressed" "yes"

/-- Metadata of an object uploaded with the key `compressed` set to `no`. -/
def markedNo : GoMap String := (∅ : GoMap String).insert "compressed" "no"

/-- Metadata with one user key and without the key `compressed`. -/
def ownerOnly : GoMap String := (∅ : GoMap String).insert "owner" "lars"

/-- The optimized image as served by the provider. -/
def optimized : HttpResponse := { status := 200, body := "optimized-png-bytes" }

/-- A completed HTTP exchange with status 500. -/
def serverError : HttpResponse := { status := 500, body := "Internal Server Error" }

/-! ## Lemmas -/

/-- The whitelist loop accepts exactly the five listed content types. -/
theorem isAllowed_iff (ct : String) :
    IsAllowedContentType ct = true ↔
      (ct = "image/jpeg" ∨ ct = "image/jpg" ∨ ct = "image/png" ∨ ct = "image/gif" ∨
        ct = "image/svg+xml") := by
  simp [IsAllowedContentType, allowedLoop]

/-- The compression stage holds no stage call site. -/
theorem calls_compress (env : Env) (e : GCSEvent) :
    calls (CompressFileWithKraken env e).2 = [] := by
  unfold CompressFileWithKraken
  simp only []
  split
  · simp [calls, Effect.isCall]
  · split
    · simp [calls, Effect.isCall]
    · split <;> simp [calls, Effect.isCall]

/-- The fetch stage holds no stage call site. -/
theorem calls_get (env : Env) (fs : FS) (p u : String) :
    calls (GetFileFromKraken env fs p u).trace = [] := by
  unfold GetFileFromKraken
  simp only []
  repeat' split
  all_goals simp [calls, Effect.isCall]

/-- The republish stage holds no stage call site. -/
theorem calls_replace (env : Env) (fs : FS) (e : GCSEvent) :
    calls (ReplaceFileOnGCS env fs e).trace = [] := by
  unfold ReplaceFileOnGCS
  simp only []
  repeat' split
  all_goals simp [calls, Effect.isCall]

/-- Stage calls of a concatenated trace. -/
theorem calls_append (s t : List Effect) : calls (s ++ t) = calls s ++ calls t := by
  simp [calls]

/-- A stage call at the head of a trace is kept. -/
theorem calls_cons_call (x : Effect) (t : List Effect) (h : x.isCall = true) :
    calls (x :: t) = x :: calls t := by
  simp [calls, h]


/-- An event without the marker passes the loop guard. -/
theorem guard_of_lacks (e : GCSEvent)
    (h : ∀ m, e.Metadata = some m → m.lookup "compressed" ≠ some "yes") :
    index e.Metadata "compressed" ≠ "yes" := by
  cases hm : e.Metadata with
  | none => simp [index]
  | some m =>
    have h1 := h m hm
    intro hv
    apply h1
    cases hl : m.lookup "compressed" with
    | none => simp [index, hl] at hv
    | some v => simp [index, hl] at hv; rw [hv]

/-- A trace without stage calls holds no stage call. -/
theorem not_mem_of_calls_nil (t : List Effect) (h : calls t = []) (x : Effect)
    (hx : x.isCall = true) : x ∉ t := by
  intro hin
  have : x ∈ calls t := by simp [calls, hin, hx]
  rw [h] at this
  cases this


/-- Formatting one string under the format `%s` yields the string. -/
theorem sprintf_s (s : String) : sprintf "%s" [GoValue.str s] = s := by
  apply String.ext
  simp [sprintf, sprintfAux, GoValue.fmtS]

/-- The source URL format joins bucket and object name verbatim. -/
theorem sprintf_url (b n : String) :
    sprintf "https://storage.googleapis.com/%s/%s" [GoValue.str b, GoValue.str n] =
      "https://storage.googleapis.com/" ++ b ++ "/" ++ n := by
  apply String.ext
  simp [sprintf, sprintfAux, GoValue.fmtS]

/-- The three entries of the request parameters. -/
theorem krakenParams_lookup (e : GCSEvent) :
    (krakenParams e).lookup "url" =
      some (GoValue.str ("https://storage.googleapis.com/" ++ e.Bucket ++ "/" ++ e.Name)) ∧
    (krakenParams e).lookup "wait" = some (GoValue.bool true) ∧
    (krakenParams e).lookup "lossy" = some (GoValue.bool true) ∧
    ∀ k, k ∈ krakenParams e ↔ (k = "url" ∨ k = "lossy" ∨ k = "wait") := by
  refine ⟨?_, ?_, ?_, ?_⟩
  · simp [krakenParams, sprintf_url]
  · rw [krakenParams, AList.lookup_insert_ne (by decide), AList.lookup_insert_ne (by decide),
      AList.lookup_insert]
  · rw [krakenParams, AList.lookup_insert_ne (by decide), AList.lookup_insert]
  · intro k
    unfold krakenParams
    rw [AList.mem_insert, AList.mem_insert, AList.mem_insert]
    simp only [AList.not_mem_empty, or_false]

/-- The only parameters ever passed to the provider are `krakenParams e`. -/
theorem krakenURL_mem (env : Env) (e : GCSEvent) (p : GoMap GoValue)
    (h : Effect.krakenURL p ∈ (CompressFileWithKraken env e).2) : p = krakenParams e := by
  unfold CompressFileWithKraken at h
  simp only [] at h
  split at h
  · simp at h
  · split at h
    · simpa using h
    · split at h <;> simpa using h

/-- The merge loop leaves the map of the event as it was. -/
theorem foldl_mergeStep_src (l : List (Sigma fun _ : String => String)) (s : MergeState) :
    (l.foldl mergeStep s).src = s.src := by
  induction l generalizing s with
  | nil => rfl
  | cons kv t ih => rw [List.foldl_cons, ih]; rfl

/-- A key that the loop does not visit keeps its value in `m`. -/
theorem foldl_mergeStep_lookup_of_not_mem (l : List (Sigma fun _ : String => String))
    (s : MergeState) (k : String) (hk : k ∉ l.keys) :
    (l.foldl mergeStep s).m.lookup k = s.m.lookup k := by
  induction l generalizing s with
  | nil => rfl
  | cons kv t ih =>
    rw [List.keys_cons, List.mem_cons, not_or] at hk
    rw [List.foldl_cons, ih _ hk.2]
    exact AList.lookup_insert_ne hk.1

/-- A key that the loop visits ends with the value of the event. -/
theorem foldl_mergeStep_lookup_of_mem (l : List (Sigma fun _ : String => String))
    (hl : l.NodupKeys) (s : MergeState) (k : String) (hk : k ∈ l.keys) :
    (l.foldl mergeStep s).m.lookup k = l.dlookup k := by
  induction l generalizing s with
  | nil => cases hk
  | cons kv t ih =>
    obtain ⟨a, b⟩ := kv
    rw [List.nodupKeys_cons] at hl
    rw [List.foldl_cons]
    by_cases hka : k = a
    · subst hka
      rw [foldl_mergeStep_lookup_of_not_mem t _ k hl.1, List.dlookup_cons_eq]
      exact AList.lookup_insert _
    · rw [List.keys_cons, List.mem_cons] at hk
      rcases hk with h | h
      · exact absurd h hka
      · rw [ih hl.2 _ h, List.dlookup_cons_ne _ _ hka]

/-- The keys of `m` after the loop. -/
theorem mem_foldl_mergeStep (l : List (Sigma fun _ : String => String)) (s : MergeState)
    (k : String) : k ∈ (l.foldl mergeStep s).m ↔ (k ∈ l.keys ∨ k ∈ s.m) := by
  induction l generalizing s with
  | nil => simp
  | cons kv t ih =>
    rw [List.foldl_cons, ih, List.keys_cons, List.mem_cons]
    simp only [mergeStep, AList.mem_insert]
    tauto

/-- On every key of the event the merged map holds the value of the event, the key `compressed` included. -/
theorem merged_lookup_of_mem (m : GoMap String) (k : String) (hk : k ∈ m) :
    (mergeMetadata (some m)).m.lookup k = m.lookup k := by
  unfold mergeMetadata rangeEntries
  exact foldl_mergeStep_lookup_of_mem m.entries m.nodupKeys _ k hk

/-- Off the keys of the event the merged map holds the marker only. -/
theorem merged_lookup_of_not_mem (md : Option (GoMap String)) (k : String)
    (hk : ∀ m, md = some m → k ∉ m) :
    (mergeMetadata md).m.lookup k = if k = "compressed" then some "yes" else none := by
  unfold mergeMetadata
  have hk2 : k ∉ (rangeEntries md).keys := by
    cases md with
    | none => simp [rangeEntries]
    | some m => exact hk m rfl
  rw [foldl_mergeStep_lookup_of_not_mem _ _ k hk2]
  by_cases h : k = "compressed"
  · subst h
    rw [if_pos rfl]
    exact AList.lookup_insert _
  · rw [if_neg h]
    show AList.lookup k (AList.insert "compressed" "yes" (∅ : GoMap String)) = none
    rw [AList.lookup_insert_ne h]
    exact AList.lookup_empty _

/-- The keys of the merged map: `compressed` and the keys of the event. -/
theorem mem_merged (md : Option (GoMap String)) (k : String) :
    k ∈ (mergeMetadata md).m ↔ (k = "compressed" ∨ ∃ m, md = some m ∧ k ∈ m) := by
  unfold mergeMetadata
  rw [mem_foldl_mergeStep]
  cases md with
  | none => simp [-AList.insert_empty, rangeEntries, AList.mem_insert]
  | some m =>
    simp [-AList.insert_empty, rangeEntries, AList.mem_insert, AList.mem_keys, AList.keys]
    tauto

/-- Every storage write of `ReplaceFileOnGCS` goes through the writer `newWriter e`. -/
theorem copyToObject_mem (env : Env) (fs : FS) (e : GCSEvent) (wc : Writer) (body : String)
    (h : Effect.copyToObject wc body ∈ (ReplaceFileOnGCS env fs e).trace) : wc = newWriter e := by
  unfold ReplaceFileOnGCS at h
  simp only [] at h
  repeat' split at h
  all_goals simp at h
  all_goals exact h.1

/-- The log line of the loop guard. -/
theorem sprintf_guard (n : String) :
    sprintf "Not processing file (already compressed): %s" [GoValue.str n] =
      "Not processing file (already compressed): " ++ n := by
  apply String.ext
  simp [sprintf, sprintfAux, GoValue.fmtS]

/-- The merged map carries the marker exactly when the event has no key
`compressed` or already maps it to `yes`. -/
theorem merged_marker_iff (md : Option (GoMap String)) :
    (mergeMetadata md).m.lookup "compressed" = some "yes" ↔
      ∀ m, md = some m → "compressed" ∈ m → m.lookup "compressed" = some "yes" := by
  constructor
  · intro h m hm hk
    rw [hm, merged_lookup_of_mem m _ hk] at h
    exact h
  · intro h
    by_cases hk : ∀ m, md = some m → "compressed" ∉ m
    · rw [merged_lookup_of_not_mem md _ hk, if_pos rfl]
    · push_neg at hk
      obtain ⟨m, hm, hin⟩ := hk
      rw [hm, merged_lookup_of_mem m _ hin]
      exact h m hm hin

/-! ## The contract -/

/-- C1: for every event whose metadata maps the key `compressed` to exactly
`yes`, whatever its other fields and whatever the environment, `ImageCompressor`
returns nil; its trace is the single log line of the guard, so no stage
(`CompressFileWithKraken`, `GetFileFromKraken`, `ReplaceFileOnGCS`) is called, no
outbound call is made and the file system is left as it was. -/
theorem skipped_when_marked (env : Env) (fs : FS) (e : GCSEvent) (m : GoMap String)
    (hm : e.Metadata = some m) (hyes : m.lookup "compressed" = some "yes") :
    (ImageCompressor env fs e).outcome = Outcome.returned none ∧
    (ImageCompressor env fs e).trace =
      [Effect.log ("Not processing file (already compressed): " ++ e.Name)] ∧
    calls (ImageCompressor env fs e).trace = [] ∧
    (∀ x ∈ (ImageCompressor env fs e).trace, x.isOutbound = false) ∧
    (ImageCompressor env fs e).fs = fs := by
  have h : index e.Metadata "compressed" = "yes" := by
    rw [hm]
    simp [index, hyes]
  simp [ImageCompressor, h, sprintf_guard, calls, Effect.isCall, Effect.isOutbound]

/-- Scenario 4 of the specification: an event already marked is skipped. -/
theorem skipped_when_marked_witness :
    (pngEvent (some markedYes)).Metadata = some markedYes ∧
    markedYes.lookup "compressed" = some "yes" ∧
    (ImageCompressor (calmEnv (.ok acceptedResponse) (.ok optimized)) []
        (pngEvent (some markedYes))).outcome = Outcome.returned none ∧
    (ImageCompressor (calmEnv (.ok acceptedResponse) (.ok optimized)) []
        (pngEvent (some markedYes))).trace =
      [Effect.log "Not processing file (already compressed): a.png"] :=
  ⟨rfl, by decide,
   (skipped_when_marked (calmEnv (.ok acceptedResponse) (.ok optimized)) []
      (pngEvent (some markedYes)) markedYes rfl (by decide)).1,
   (skipped_when_marked (calmEnv (.ok acceptedResponse) (.ok optimized)) []
      (pngEvent (some markedYes)) markedYes rfl (by decide)).2.1⟩

/-- C2: for every event whose content type is none of `image/jpeg`, `image/jpg`,
`image/png`, `image/gif`, `image/svg+xml`, `ImageCompressor` returns nil; its
trace is a single log line, so no stage is called, no outbound call is made and
the file system is left as it was. -/
theorem skipped_when_content_type_not_allowed (env : Env) (fs : FS) (e : GCSEvent)
    (h : e.ContentType ≠ "image/jpeg" ∧ e.ContentType ≠ "image/jpg" ∧
      e.ContentType ≠ "image/png" ∧ e.ContentType ≠ "image/gif" ∧
      e.ContentType ≠ "image/svg+xml") :
    (ImageCompressor env fs e).outcome = Outcome.returned none ∧
    (∃ msg, (ImageCompressor env fs e).trace = [Effect.log msg]) ∧
    calls (ImageCompressor env fs e).trace = [] ∧
    (∀ x ∈ (ImageCompressor env fs e).trace, x.isOutbound = false) ∧
    (ImageCompressor env fs e).fs = fs := by
  have hna : IsAllowedContentType e.ContentType = false := by
    cases hb : IsAllowedContentType e.ContentType with
    | false => rfl
    | true =>
      rcases (isAllowed_iff _).1 hb with h1 | h1 | h1 | h1 | h1
      · exact absurd h1 h.1
      · exact absurd h1 h.2.1
      · exact absurd h1 h.2.2.1
      · exact absurd h1 h.2.2.2.1
      · exact absurd h1 h.2.2.2.2
  unfold ImageCompressor
  by_cases hg : index e.Metadata "compressed" = "yes"
  · simp [hg, calls, Effect.isCall, Effect.isOutbound]
  · simp [hg, hna, calls, Effect.isCall, Effect.isOutbound]

/-- Scenario 3 of the specification: a PDF is skipped. -/
theorem skipped_when_content_type_not_allowed_witness :
    (pdfEvent.ContentType ≠ "image/jpeg" ∧ pdfEvent.ContentType ≠ "image/jpg" ∧
      pdfEvent.ContentType ≠ "image/png" ∧ pdfEvent.ContentType ≠ "image/gif" ∧
      pdfEvent.ContentType ≠ "image/svg+xml") ∧
    (ImageCompressor (calmEnv (.ok acceptedResponse) (.ok optimized)) [] pdfEvent).outcome =
      Outcome.returned none ∧
    calls (ImageCompressor (calmEnv (.ok acceptedResponse) (.ok optimized)) [] pdfEvent).trace =
      [] :=
  ⟨by decide,
   (skipped_when_content_type_not_allowed (calmEnv (.ok acceptedResponse) (.ok optimized)) []
      pdfEvent (by decide)).1,
   (skipped_when_content_type_not_allowed (calmEnv (.ok acceptedResponse) (.ok optimized)) []
      pdfEvent (by decide)).2.2.1⟩

/-- C3, evaluated on the code: for the event of object `a.png` whose metadata is
`compressed = no`, `ReplaceFileOnGCS` succeeds and the metadata map it attaches
to the storage write maps `compressed` to `no`, not to `yes`: the loop over the
metadata of the event runs after the marker is set and overwrites it. -/
theorem marker_overridden_by_event_value :
    (ReplaceFileOnGCS (calmEnv (.ok acceptedResponse) (.ok optimized))
        [("//tmp/a.png", "optimized-png-bytes")] (pngEvent (some markedNo))).res = Res.ok () ∧
    (ReplaceFileOnGCS (calmEnv (.ok acceptedResponse) (.ok optimized))
        [("//tmp/a.png", "optimized-png-bytes")] (pngEvent (some markedNo))).trace =
      [Effect.openFile "//tmp/a.png",
       Effect.newClient,
       Effect.copyToObject (newWriter (pngEvent (some markedNo))) "optimized-png-bytes",
       Effect.closeWriter (newWriter (pngEvent (some markedNo))),
       Effect.log "Success, optimized and replaced image on GCS: a.png",
       Effect.closeFile "//tmp/a.png"] ∧
    (newWriter (pngEvent (some markedNo))).Metadata.lookup "compressed" = some "no" ∧
    (newWriter (pngEvent (some markedNo))).Metadata.lookup "compressed" ≠ some "yes" := by
  refine ⟨rfl, rfl, by decide, by decide⟩

/-- C4, evaluated on the code: the event of object `a.png` with metadata
`compressed = no` is processed through to a successful publish, the follow-up
event of that write carries `compressed = no`, and the invocation on the
follow-up event does not return at the guard: it calls the compression stage
and the provider again. -/
theorem follow_up_event_is_reprocessed :
    (ImageCompressor (calmEnv (.ok acceptedResponse) (.ok optimized)) []
        (pngEvent (some markedNo))).outcome = Outcome.returned none ∧
    (ImageCompressor (calmEnv (.ok acceptedResponse) (.ok optimized)) []
        (pngEvent (some markedNo))).trace =
      [Effect.callCompress (pngEvent (some markedNo)),
       Effect.log "Processing file: a.png...",
       Effect.krakenNew "key" "secret",
       Effect.krakenURL (krakenParams (pngEvent (some markedNo))),
       Effect.callGet "a.png" "https://x/a.png",
       Effect.httpGet "https://x/a.png",
       Effect.mkdirAll "/tmp/.",
       Effect.create "//tmp/a.png",
       Effect.copyToFile "//tmp/a.png" "optimized-png-bytes",
       Effect.closeFile "//tmp/a.png",
       Effect.closeBody "https://x/a.png",
       Effect.callReplace (pngEvent (some markedNo)),
       Effect.openFile "//tmp/a.png",
       Effect.newClient,
       Effect.copyToObject (newWriter (pngEvent (some markedNo))) "optimized-png-bytes",
       Effect.closeWriter (newWriter (pngEvent (some markedNo))),
       Effect.log "Success, optimized and replaced image on GCS: a.png",
       Effect.closeFile "//tmp/a.png"] ∧
    index (followUpEvent (pngEvent (some markedNo))
        (newWriter (pngEvent (some markedNo)))).Metadata "compressed" = "no" ∧
    (ImageCompressor (calmEnv (.ok acceptedResponse) (.ok optimized))
        (ImageCompressor (calmEnv (.ok acceptedResponse) (.ok optimized)) []
          (pngEvent (some markedNo))).fs
        (followUpEvent (pngEvent (some markedNo))
          (newWriter (pngEvent (some markedNo))))).trace.take 4 =
      [Effect.callCompress (followUpEvent (pngEvent (some markedNo))
          (newWriter (pngEvent (some markedNo)))),
       Effect.log "Processing file: a.png...",
       Effect.krakenNew "key" "secret",
       Effect.krakenURL (krakenParams (followUpEvent (pngEvent (some markedNo))
          (newWriter (pngEvent (some markedNo)))))] := by
  refine ⟨rfl, rfl, by decide, rfl⟩

/-- C5: `IsAllowedContentType` returns true exactly on the five strings
`image/jpeg`, `image/jpg`, `image/png`, `image/gif`, `image/svg+xml`; the match is
exact, so an upper-case spelling, a parameter, a wildcard, the empty string and
a leading blank are all rejected. -/
theorem isAllowedContentType_exact :
    (∀ ct : String, IsAllowedContentType ct = true ↔
      (ct = "image/jpeg" ∨ ct = "image/jpg" ∨ ct = "image/png" ∨ ct = "image/gif" ∨
        ct = "image/svg+xml")) ∧
    IsAllowedContentType "IMAGE/PNG" = false ∧
    IsAllowedContentType "image/png; charset=utf-8" = false ∧
    IsAllowedContentType "image/*" = false ∧
    IsAllowedContentType "" = false ∧
    IsAllowedContentType " image/png" = false := by
  refine ⟨isAllowed_iff, ?_, ?_, ?_, ?_, ?_⟩ <;> decide

/-- C6, evaluated on the code: compression succeeds and the GET on the result
URL completes with status 500.  `GetFileFromKraken` never reads the status: it
returns nil, `ImageCompressor` goes on to `ReplaceFileOnGCS`, the body of the
error response is written over the object and the invocation returns nil. -/
theorem status_500_body_is_published :
    (GetFileFromKraken (calmEnv (.ok acceptedResponse) (.ok serverError)) [] "a.png"
        "https://x/a.png").res = Res.ok () ∧
    (ImageCompressor (calmEnv (.ok acceptedResponse) (.ok serverError)) []
        (pngEvent none)).outcome = Outcome.returned none ∧
    (ImageCompressor (calmEnv (.ok acceptedResponse) (.ok serverError)) []
        (pngEvent none)).trace =
      [Effect.callCompress (pngEvent none),
       Effect.log "Processing file: a.png...",
       Effect.krakenNew "key" "secret",
       Effect.krakenURL (krakenParams (pngEvent none)),
       Effect.callGet "a.png" "https://x/a.png",
       Effect.httpGet "https://x/a.png",
       Effect.mkdirAll "/tmp/.",
       Effect.create "//tmp/a.png",
       Effect.copyToFile "//tmp/a.png" "Internal Server Error",
       Effect.closeFile "//tmp/a.png",
       Effect.closeBody "https://x/a.png",
       Effect.callReplace (pngEvent none),
       Effect.openFile "//tmp/a.png",
       Effect.newClient,
       Effect.copyToObject (newWriter (pngEvent none)) "Internal Server Error",
       Effect.closeWriter (newWriter (pngEvent none)),
       Effect.log "Success, optimized and replaced image on GCS: a.png",
       Effect.closeFile "//tmp/a.png"] := by
  refine ⟨rfl, rfl, rfl⟩

/-- C7: for every event that lacks the marker (nil map, no key `compressed`, or
another value than `yes`) and has an allowed content type, the trace of
`ImageCompressor` starts with the call of the compressor; the fetcher is called
only when the compressor returned a URL, and then with the object name and that
URL; the republisher is called only when the fetch returned nil; an error
returned by a stage makes the invocation panic with that same error, the stage
calls made being exactly those up to the failing stage; the invocation returns
nil only when all three stages returned nil, and it never returns a non-nil
error. -/
theorem stages_run_in_sequence (env : Env) (fs : FS) (e : GCSEvent)
    (hmarker : ∀ m, e.Metadata = some m → m.lookup "compressed" ≠ some "yes")
    (hct : IsAllowedContentType e.ContentType = true) :
    (∃ rest, (ImageCompressor env fs e).trace = Effect.callCompress e :: rest) ∧
    (∀ x, (CompressFileWithKraken env e).1 = Res.err x →
      (ImageCompressor env fs e).outcome = Outcome.panicked x ∧
      calls (ImageCompressor env fs e).trace = [Effect.callCompress e]) ∧
    (∀ url, (CompressFileWithKraken env e).1 = Res.ok url →
      (∀ x, (GetFileFromKraken env fs e.Name url).res = Res.err x →
        (ImageCompressor env fs e).outcome = Outcome.panicked x ∧
        calls (ImageCompressor env fs e).trace =
          [Effect.callCompress e, Effect.callGet e.Name url]) ∧
      ((GetFileFromKraken env fs e.Name url).res = Res.ok () →
        calls (ImageCompressor env fs e).trace =
          [Effect.callCompress e, Effect.callGet e.Name url, Effect.callReplace e] ∧
        (∀ x, (ReplaceFileOnGCS env (GetFileFromKraken env fs e.Name url).fs e).res = Res.err x →
          (ImageCompressor env fs e).outcome = Outcome.panicked x) ∧
        ((ReplaceFileOnGCS env (GetFileFromKraken env fs e.Name url).fs e).res = Res.ok () →
          (ImageCompressor env fs e).outcome = Outcome.returned none))) ∧
    (∀ p u, Effect.callGet p u ∈ (ImageCompressor env fs e).trace →
      p = e.Name ∧ (CompressFileWithKraken env e).1 = Res.ok u) ∧
    (∀ e2, Effect.callReplace e2 ∈ (ImageCompressor env fs e).trace →
      e2 = e ∧ ∃ url, (CompressFileWithKraken env e).1 = Res.ok url ∧
        (GetFileFromKraken env fs e.Name url).res = Res.ok ()) ∧
    ((ImageCompressor env fs e).outcome = Outcome.returned none →
      ∃ url, (CompressFileWithKraken env e).1 = Res.ok url ∧
        (GetFileFromKraken env fs e.Name url).res = Res.ok () ∧
        (ReplaceFileOnGCS env (GetFileFromKraken env fs e.Name url).fs e).res = Res.ok ()) ∧
    (∀ x, (ImageCompressor env fs e).outcome ≠ Outcome.returned (some x)) := by
  have hg := guard_of_lacks e hmarker
  have hcc := calls_compress env e
  have nc := not_mem_of_calls_nil _ hcc
  unfold ImageCompressor
  rw [if_neg hg]
  simp only [hct, Bool.not_true, Bool.false_eq_true, if_false]
  cases hc : (CompressFileWithKraken env e).1 with
  | err x =>
    have n1 := fun p u => nc (Effect.callGet p u) rfl
    have n2 := fun e2 => nc (Effect.callReplace e2) rfl
    simp [calls_append, calls_cons_call, hcc, Effect.isCall, n1, n2]
  | fatal x =>
    have n1 := fun p u => nc (Effect.callGet p u) rfl
    have n2 := fun e2 => nc (Effect.callReplace e2) rfl
    simp [calls_append, calls_cons_call, hcc, Effect.isCall, n1, n2]
  | ok url =>
    have hcg := calls_get env fs e.Name url
    have ng := not_mem_of_calls_nil _ hcg
    have n1 := fun p u => nc (Effect.callGet p u) rfl
    have n2 := fun e2 => nc (Effect.callReplace e2) rfl
    have n3 := fun p u => ng (Effect.callGet p u) rfl
    have n4 := fun e2 => ng (Effect.callReplace e2) rfl
    simp only []
    cases hgr : (GetFileFromKraken env fs e.Name url).res with
    | err x =>
      simp [calls_append, calls_cons_call, hcc, hcg, Effect.isCall, n1, n2, n3, n4, hgr]
    | fatal x =>
      simp [calls_append, calls_cons_call, hcc, hcg, Effect.isCall, n1, n2, n3, n4, hgr]
    | ok u0 =>
      have hcr := calls_replace env (GetFileFromKraken env fs e.Name url).fs e
      have nr := not_mem_of_calls_nil _ hcr
      have n5 := fun p u => nr (Effect.callGet p u) rfl
      have n6 := fun e2 => nr (Effect.callReplace e2) rfl
      simp only []
      cases hpr : (ReplaceFileOnGCS env (GetFileFromKraken env fs e.Name url).fs e).res with
      | err x =>
        simp [calls_append, calls_cons_call, hcc, hcg, hcr, Effect.isCall, n1, n2, n3, n4, n5, n6, hgr, hpr]
      | fatal x =>
        simp [calls_append, calls_cons_call, hcc, hcg, hcr, Effect.isCall, n1, n2, n3, n4, n5, n6, hgr, hpr]
      | ok u1 =>
        simp [calls_append, calls_cons_call, hcc, hcg, hcr, Effect.isCall, n1, n2, n3, n4, n5, n6, hgr, hpr]

/-- Scenario 1 of the specification: all three stages run, in order, and the
invocation returns nil. -/
theorem stages_run_in_sequence_witness :
    (∀ m, (pngEvent none).Metadata = some m → m.lookup "compressed" ≠ some "yes") ∧
    IsAllowedContentType (pngEvent none).ContentType = true ∧
    (ImageCompressor (calmEnv (.ok acceptedResponse) (.ok optimized)) []
        (pngEvent none)).outcome = Outcome.returned none ∧
    calls (ImageCompressor (calmEnv (.ok acceptedResponse) (.ok optimized)) []
        (pngEvent none)).trace =
      [Effect.callCompress (pngEvent none), Effect.callGet "a.png" "https://x/a.png",
        Effect.callReplace (pngEvent none)] :=
  ⟨fun _ h => by simp [pngEvent] at h, by decide,
    (((stages_run_in_sequence (calmEnv (.ok acceptedResponse) (.ok optimized)) [] (pngEvent none)
      (fun _ h => by simp [pngEvent] at h) (by decide)).2.2.1 "https://x/a.png" rfl).2 rfl).2.2 rfl,
    (((stages_run_in_sequence (calmEnv (.ok acceptedResponse) (.ok optimized)) [] (pngEvent none)
      (fun _ h => by simp [pngEvent] at h) (by decide)).2.2.1 "https://x/a.png" rfl).2 rfl).1⟩

/-- C8: when the Kraken client was created and its call returned a response
without error, `CompressFileWithKraken` returns an error whose text is the
message string of the response whenever the success flag is false or absent,
and returns the `kraked_url` string of the response unchanged, with a nil
error, when the success flag is true. -/
theorem compress_result_follows_response (env : Env) (e : GCSEvent) (data : GoMap GoValue)
    (hnew : env.krakenNew (env.getenv "KRAKEN_API_KEY") (env.getenv "KRAKEN_SECRET_KEY") = none)
    (hresp : env.krakenURL (krakenParams e) = Except.ok data) :
    (∀ msg, (data.lookup "success" = some (GoValue.bool false) ∨ data.lookup "success" = none) →
      data.lookup "message" = some (GoValue.str msg) →
      (CompressFileWithKraken env e).1 = Res.err msg) ∧
    (∀ url, data.lookup "success" = some (GoValue.bool true) →
      data.lookup "kraked_url" = some (GoValue.str url) →
      (CompressFileWithKraken env e).1 = Res.ok url) := by
  refine ⟨?_, ?_⟩
  · intro msg hflag hmsg
    have hne : dataIndex data "success" ≠ GoValue.bool true := by
      rcases hflag with h | h <;> simp [dataIndex, h]
    have hm : dataIndex data "message" = GoValue.str msg := by simp [dataIndex, hmsg]
    simp [CompressFileWithKraken, hnew, hresp, hne, hm, sprintf_s]
  · intro url hflag hurl
    have heq : dataIndex data "success" = GoValue.bool true := by simp [dataIndex, hflag]
    have hu : dataIndex data "kraked_url" = GoValue.str url := by simp [dataIndex, hurl]
    simp [CompressFileWithKraken, hnew, hresp, heq, hu, sprintf_s]

/-- Scenario 2 of the specification and its successful counterpart. -/
theorem compress_result_follows_response_witness :
    (CompressFileWithKraken (calmEnv (.ok rejectedResponse) (.error "unused")) (pngEvent none)).1
        = Res.err "quota exceeded" ∧
    (CompressFileWithKraken (calmEnv (.ok acceptedResponse) (.error "unused")) (pngEvent none)).1
        = Res.ok "https://x/a.png" :=
  ⟨(compress_result_follows_response (calmEnv (.ok rejectedResponse) (.error "unused"))
      (pngEvent none) rejectedResponse rfl rfl).1
      "quota exceeded" (Or.inl (by decide)) (by decide),
   (compress_result_follows_response (calmEnv (.ok acceptedResponse) (.error "unused"))
      (pngEvent none) acceptedResponse rfl rfl).2
      "https://x/a.png" (by decide) (by decide)⟩

/-- C9: for every event and every storage write that `ReplaceFileOnGCS` makes,
the metadata map of the write contains every key of the metadata of the event,
holds the value of the event on every such key other than `compressed`, has no
key besides `compressed` and the keys of the event, and the map of the event is
the same after the merge as before. -/
theorem written_metadata_extends_event (env : Env) (fs : FS) (e : GCSEvent) (wc : Writer) (body : String)
    (hwrite : Effect.copyToObject wc body ∈ (ReplaceFileOnGCS env fs e).trace) :
    (∀ m, e.Metadata = some m → ∀ k, k ∈ m → k ∈ wc.Metadata) ∧
    (∀ m, e.Metadata = some m → ∀ k, k ∈ m → k ≠ "compressed" →
      wc.Metadata.lookup k = m.lookup k) ∧
    (∀ k, k ∈ wc.Metadata → k = "compressed" ∨ ∃ m, e.Metadata = some m ∧ k ∈ m) ∧
    (mergeMetadata e.Metadata).src = e.Metadata := by
  rw [copyToObject_mem env fs e wc body hwrite]
  refine ⟨?_, ?_, ?_, ?_⟩
  · intro m hm k hk
    exact (mem_merged e.Metadata k).2 (Or.inr ⟨m, hm, hk⟩)
  · intro m hm k hk _
    show (mergeMetadata e.Metadata).m.lookup k = m.lookup k
    rw [hm]
    exact merged_lookup_of_mem m k hk
  · intro k hk
    exact (mem_merged e.Metadata k).1 hk
  · unfold mergeMetadata
    exact foldl_mergeStep_src _ _

/-- An event with one user key: the key is written with the value of the event. -/
theorem written_metadata_extends_event_witness :
    Effect.copyToObject (newWriter (pngEvent (some ownerOnly))) "optimized-png-bytes" ∈
      (ReplaceFileOnGCS (calmEnv (.ok acceptedResponse) (.ok optimized))
        [("//tmp/a.png", "optimized-png-bytes")] (pngEvent (some ownerOnly))).trace ∧
    (newWriter (pngEvent (some ownerOnly))).Metadata.lookup "owner" = some "lars" :=
  ⟨List.Mem.tail _ (List.Mem.tail _ (List.Mem.head _)),
   ((written_metadata_extends_event (calmEnv (.ok acceptedResponse) (.ok optimized))
      [("//tmp/a.png", "optimized-png-bytes")]
      (pngEvent (some ownerOnly)) (newWriter (pngEvent (some ownerOnly))) "optimized-png-bytes"
      (List.Mem.tail _ (List.Mem.tail _ (List.Mem.head _)))).2.1 ownerOnly rfl "owner"
      (by decide) (by decide)).trans (by decide)⟩

/-- C10: every parameter map that `CompressFileWithKraken` passes to the provider
has exactly the keys `url`, `lossy`, `wait`; its `url` is the string
`https://storage.googleapis.com/` followed by the bucket, a slash and the object
name, both verbatim, and `wait` and `lossy` are true; the call is made whenever
the client could be created. -/
theorem source_url_verbatim (env : Env) (e : GCSEvent) :
    (∀ p, Effect.krakenURL p ∈ (CompressFileWithKraken env e).2 →
      p.lookup "url" =
        some (GoValue.str ("https://storage.googleapis.com/" ++ e.Bucket ++ "/" ++ e.Name)) ∧
      p.lookup "wait" = some (GoValue.bool true) ∧
      p.lookup "lossy" = some (GoValue.bool true) ∧
      ∀ k, k ∈ p ↔ (k = "url" ∨ k = "lossy" ∨ k = "wait")) ∧
    (env.krakenNew (env.getenv "KRAKEN_API_KEY") (env.getenv "KRAKEN_SECRET_KEY") = none →
      ∃ p, Effect.krakenURL p ∈ (CompressFileWithKraken env e).2) := by
  refine ⟨?_, ?_⟩
  · intro p hp
    rw [krakenURL_mem env e p hp]
    exact krakenParams_lookup e
  · intro hnew
    refine ⟨krakenParams e, ?_⟩
    unfold CompressFileWithKraken
    simp only [hnew]
    split
    · simp
    · split <;> simp

/-- An object name with a slash, a blank, `?`, `#` and `%` reaches the provider
unescaped. -/
theorem source_url_verbatim_witness :
    Effect.krakenURL (krakenParams oddNameEvent) ∈
      (CompressFileWithKraken (calmEnv (.ok acceptedResponse) (.ok optimized)) oddNameEvent).2 ∧
    (krakenParams oddNameEvent).lookup "url" =
      some (GoValue.str "https://storage.googleapis.com/b/dir/a b?c#d%25.png") ∧
    (krakenParams oddNameEvent).lookup "wait" = some (GoValue.bool true) ∧
    (krakenParams oddNameEvent).lookup "lossy" = some (GoValue.bool true) :=
  ⟨List.Mem.tail _ (List.Mem.tail _ (List.Mem.head _)),
   ((source_url_verbatim (calmEnv (.ok acceptedResponse) (.ok optimized)) oddNameEvent).1 _
      (List.Mem.tail _ (List.Mem.tail _ (List.Mem.head _)))).1,
   ((source_url_verbatim (calmEnv (.ok acceptedResponse) (.ok optimized)) oddNameEvent).1 _
      (List.Mem.tail _ (List.Mem.tail _ (List.Mem.head _)))).2.1,
   ((source_url_verbatim (calmEnv (.ok acceptedResponse) (.ok optimized)) oddNameEvent).1 _
      (List.Mem.tail _ (List.Mem.tail _ (List.Mem.head _)))).2.2.1⟩

end GcpKraken
